import Mathlib

/-!
# Verification of the push-to-talk voice capture pipeline

Shallow embedding of `claude_code_voice_module.py`:

* `VoiceConfig` — the configuration dataclass (typed values, as the runtime
  components read them).
* `get_audio_level` — `AudioRecorder.get_audio_level`: RMS level of a raw
  16-bit little-endian byte buffer.
* `recordLoop` / `record_audio` — the capture loop of
  `AudioRecorder.record_audio`, driven by an explicit per-iteration
  environment trace (clock readings, chunk bytes delivered by the stream,
  and the shared continue flag as observed at the end-of-iteration check).
* `transcribe` — `WhisperTranscriber.transcribe` / `transcribe_local`, with
  the Whisper model abstracted as a fallible text-producing function.
* `matchesHotkey` — `VoiceInput._matches_hotkey`.
* `onKeyPress` / `onKeyRelease` / `cycleComplete` — the listener callbacks
  and the worker life cycle of `VoiceInput`, plus a small event-trace
  semantics counting in-flight workers.
* `from_file` — `VoiceConfig.from_file`, over a dynamic JSON-valued record
  (the Python dataclass constructor does not check value types, only
  keyword names).
-/

namespace VoiceModule

/-- A byte of a Python `bytes` object. -/
abbrev Byte := Fin 256

/-! ## Configuration (`VoiceConfig` dataclass) -/

/-- The `VoiceConfig` dataclass with its declared field types.  Float fields
are modelled as rationals, times in seconds. -/
structure VoiceConfig where
  push_to_talk_key : String
  whisper_model : String
  language : String
  sample_rate : Nat
  channels : Nat
  chunk_size : Nat
  silence_threshold : ℚ
  silence_duration : ℚ
  max_recording_time : ℚ
  auto_submit : Bool
  show_audio_levels : Bool
deriving Repr, DecidableEq

/-- The dataclass defaults: `right_shift`, `base`, `en`, 16000 Hz, 1 channel,
1024-byte chunks, threshold 100, 1.5 s silence, 30 s cap, no auto submit,
levels shown. -/
def VoiceConfig.default : VoiceConfig :=
  { push_to_talk_key := "right_shift"
    whisper_model := "base"
    language := "en"
    sample_rate := 16000
    channels := 1
    chunk_size := 1024
    silence_threshold := 100
    silence_duration := 3 / 2
    max_recording_time := 30
    auto_submit := false
    show_audio_levels := true }

/-! ## RMS audio level (`AudioRecorder.get_audio_level`) -/

/-- One little-endian signed 16-bit sample from two bytes
(`np.frombuffer(data, dtype=np.int16)` element). -/
def decodeInt16 (b0 b1 : Byte) : Int :=
  let v : Nat := b0.val + 256 * b1.val
  if v < 32768 then (v : Int) else (v : Int) - 65536

/-- `np.frombuffer(data, dtype=np.int16)`: pairs of bytes become samples;
a buffer whose length is not a multiple of two raises `ValueError`,
modelled as `none`. -/
def bytesToInt16 : List Byte → Option (List Int)
  | [] => some []
  | [_] => none
  | b0 :: b1 :: rest => (bytesToInt16 rest).map (fun l => decodeInt16 b0 b1 :: l)

/-- `np.mean(samples.astype(np.float64) ** 2)` for a non-empty sample list. -/
def meanOfSquares (l : List Int) : ℚ :=
  ((l.map (fun s => (s : ℚ) ^ 2)).sum) / (l.length : ℚ)

/-- The mean-square level of a raw byte buffer: 0 on decode failure
(the `except` branch) and on an empty sample array (the `len == 0` check),
otherwise the mean of the squared samples.  The RMS level used by the code
is the square root of this quantity. -/
def meanSquare (data : List Byte) : ℚ :=
  match bytesToInt16 data with
  | none => 0
  | some [] => 0
  | some samples => meanOfSquares samples

/-- `AudioRecorder.get_audio_level`: RMS of the decoded int16 samples;
0.0 when decoding raises, when the buffer is empty, or (vacuously for
int16 data) when the RMS is NaN or infinite. -/
noncomputable def get_audio_level (data : List Byte) : ℝ :=
  match bytesToInt16 data with
  | none => 0
  | some [] => 0
  | some samples => Real.sqrt (meanOfSquares samples)

/-- Decidable form of the silence comparison `get_audio_level data < t`
used by the executable capture loop; `levelBelow_iff` proves it equivalent
to the real comparison performed by the code. -/
def levelBelow (data : List Byte) (t : ℚ) : Bool :=
  decide (0 < t ∧ meanSquare data < t ^ 2)

/-! ## The capture loop (`AudioRecorder.record_audio`) -/

/-- The environment of one loop iteration: the clock reading at the
max-duration check (line `time.time() - start_time`), the chunk the stream
read returns, the clock reading inside the silence branch, and the value of
`should_continue_recording` observed at the end-of-iteration check. -/
structure IterInput where
  t1 : ℚ
  chunk : List Byte
  t2 : ℚ
  cont : Bool
deriving Repr, DecidableEq

/-- Why the loop stopped. -/
inductive StopReason
  | maxTime
  | silence
  | released
deriving Repr, DecidableEq

/-- Status after consuming a trace: stopped for a reason, or still running
(trace exhausted) with the current silence-run start. -/
inductive RunStatus
  | stopped (reason : StopReason)
  | running (silenceStart : Option ℚ)
deriving Repr, DecidableEq

/-- Result of running the loop on a trace: accumulated frames, the chunks
for which a level bar was emitted, and the final status. -/
structure RunResult where
  frames : List (List Byte)
  displays : List (List Byte)
  status : RunStatus
deriving Repr, DecidableEq

/-- `min_data_threshold = 5`: wait for at least 5 chunks before showing levels. -/
def min_data_threshold : Nat := 5

/-- The display accumulator after one iteration that read chunk `c` on top
of `frames`: the level bar is emitted only once at least
`min_data_threshold` chunks have been read and the show-levels flag is
set. -/
def dispAfter (cfg : VoiceConfig) (frames disp : List (List Byte))
    (c : List Byte) : List (List Byte) :=
  if min_data_threshold ≤ (frames ++ [c]).length ∧ cfg.show_audio_levels = true
  then disp ++ [c] else disp

/-- The body of `record_audio`'s `while` loop, one constructor of the trace
per iteration.  Per iteration, in source order: the max-recording-time check
(strict `>`, before any read), the blocking chunk read and append, the level
display (presentation only), the silence tracking with its strict `>` expiry
check, and finally the `should_continue_recording` check.  The recorder's own
`self.recording` flag is set once before the loop and never cleared inside
it, so the `while self.recording` condition never terminates the loop by
itself. -/
def recordLoop (cfg : VoiceConfig) (start : ℚ) :
    List IterInput → List (List Byte) → List (List Byte) → Option ℚ → RunResult
  | [], frames, disp, ss => ⟨frames, disp, .running ss⟩
  | inp :: rest, frames, disp, ss =>
    if inp.t1 - start > cfg.max_recording_time then
      ⟨frames, disp, .stopped .maxTime⟩
    else
      let frames' := frames ++ [inp.chunk]
      let disp' := dispAfter cfg frames disp inp.chunk
      if levelBelow inp.chunk cfg.silence_threshold then
        match ss with
        | none =>
          if inp.cont then recordLoop cfg start rest frames' disp' (some inp.t2)
          else ⟨frames', disp', .stopped .released⟩
        | some st =>
          if inp.t2 - st > cfg.silence_duration then ⟨frames', disp', .stopped .silence⟩
          else if inp.cont then recordLoop cfg start rest frames' disp' (some st)
          else ⟨frames', disp', .stopped .released⟩
      else
        if inp.cont then recordLoop cfg start rest frames' disp' none
        else ⟨frames', disp', .stopped .released⟩

/-- `AudioRecorder.record_audio`: runs the loop from an empty frame list and
no silence run; on a run that stops, returns `some` of the joined frames
(`none` inside when the frame list is empty); outer `none` when the supplied
trace was exhausted before any stop condition fired. -/
def record_audio (cfg : VoiceConfig) (start : ℚ) (trace : List IterInput) :
    Option (Option (List Byte)) :=
  match recordLoop cfg start trace [] [] none with
  | ⟨frames, _, .stopped _⟩ => some (if frames = [] then none else some frames.flatten)
  | ⟨_, _, .running _⟩ => none

/-! ## Hotkey matching (`VoiceInput._matches_hotkey`) -/

/-- Python `str.lower()` (character-wise, as for the ASCII key names the
code handles). -/
def pyLower (s : String) : String := ⟨s.data.map Char.toLower⟩

/-- Python `str.replace('_', ' ')`: a single-character pattern, so a
character-wise map. -/
def replaceUnderscores (s : String) : String :=
  ⟨s.data.map (fun c => if c = '_' then ' ' else c)⟩

/-- Helper for `pySplit`: accumulates the current word (reversed) while
scanning. -/
def pySplitAux : List Char → List Char → List String
  | [], [] => []
  | [], acc => [⟨acc.reverse⟩]
  | c :: cs, acc =>
    if c.isWhitespace then
      match acc with
      | [] => pySplitAux cs []
      | _ => (⟨acc.reverse⟩ : String) :: pySplitAux cs []
    else pySplitAux cs (c :: acc)

/-- Python `str.split()` with no argument: splits on whitespace runs and
never yields empty fields. -/
def pySplit (s : String) : List String := pySplitAux s.data []

/-- A pynput key event: a printable key carrying a character string, or a
special key carrying a name.  A `KeyCode` whose `char` is `None` matches the
empty-string case. -/
inductive Key
  | char (c : String)
  | named (n : String)
deriving Repr, DecidableEq

/-- `VoiceInput._matches_hotkey`.  Character keys compare lowercased against
the configured key.  Named keys match directly (lowercased), or via the
side-alias rule: a two-part configured name `<side> <base>` with side
`right`/`left` also matches `<base>_r` / `<base>_l`.  Only the configured
hotkey is underscore/space normalized, never the event's name. -/
def matchesHotkey (cfgKey : String) (k : Key) : Bool :=
  let hotkey := pyLower cfgKey
  match k with
  | .char c => if c = "" then false else pyLower c == hotkey
  | .named n =>
    let key_name := pyLower n
    if key_name == hotkey then true
    else
      match pySplit (replaceUnderscores hotkey) with
      | [side, base] =>
        if side = "right" ∨ side = "left" then
          let suffix := if side = "right" then "r" else "l"
          key_name == base ++ "_" ++ suffix
        else false
      | _ => false

/-! ## Transcription (`WhisperTranscriber`) -/

/-- Python `str.strip()` with no argument: removes leading and trailing
whitespace. -/
def pyStrip (s : String) : String :=
  ⟨((s.data.dropWhile Char.isWhitespace).reverse.dropWhile
      Char.isWhitespace).reverse⟩

/-- The loaded Whisper model together with the WAV serialization, abstracted
as a function from the raw audio bytes to recognized text; `Except.error`
stands for any exception raised while writing the file or transcribing. -/
def WhisperModel := List Byte → Except String String

/-- `WhisperTranscriber.transcribe_local`: serialize, run the model, strip
the recognized text.  There is no exception handler on this path, so an
error propagates. -/
def transcribe_local (model : WhisperModel) (audio_data : List Byte) :
    Except String String := do
  let result ← model audio_data
  return pyStrip result

/-- `WhisperTranscriber.transcribe`: empty (falsy) audio short-circuits to
`None` without touching the model; otherwise the result of
`transcribe_local` — a string that may be empty — is returned, and any
exception propagates. -/
def transcribe (model : WhisperModel) (audio_data : List Byte) :
    Except String (Option String) :=
  if audio_data = [] then .ok none
  else (transcribe_local model audio_data).map some

/-! ## Session state and listener callbacks (`VoiceInput`) -/

/-- The mutable state shared between the pynput listener thread and a
capture worker: `active` (`self.active`), `recording` (`self.recording`,
the press gate), and `shouldContinue` modelling
`self.recorder.should_continue_recording` — `none` while the attribute has
never been set (the `hasattr` check in `_on_key_release`). -/
structure SessionState where
  active : Bool
  recording : Bool
  shouldContinue : Option Bool
deriving Repr, DecidableEq

/-- The state of a freshly started `VoiceInput`: active listener, not
recording, recorder attribute unset. -/
def initialSession : SessionState :=
  { active := true, recording := false, shouldContinue := none }

/-- `VoiceInput._on_key_press`: ignored unless active and not recording;
a matching key sets `recording` and spawns one worker thread (the returned
Boolean). -/
def onKeyPress (cfg : VoiceConfig) (s : SessionState) (k : Key) :
    SessionState × Bool :=
  if !s.active || s.recording then (s, false)
  else if matchesHotkey cfg.push_to_talk_key k then
    ({ s with recording := true }, true)
  else (s, false)

/-- `VoiceInput._on_key_release`: on a matching key, sets
`self.recording = False` immediately and, when the recorder attribute
exists, clears `should_continue_recording`.  There is no `active` check on
this path. -/
def onKeyRelease (cfg : VoiceConfig) (s : SessionState) (k : Key) : SessionState :=
  if matchesHotkey cfg.push_to_talk_key k then
    { s with
      recording := false
      shouldContinue :=
        match s.shouldContinue with
        | none => none
        | some _ => some false }
  else s

/-- The first statement of `VoiceInput._record_and_transcribe`:
`self.recorder.should_continue_recording = True`. -/
def workerStart (s : SessionState) : SessionState :=
  { s with shouldContinue := some true }

/-- The effect of `_record_and_transcribe` running to completion on the
shared session state: none — the function never writes `self.recording`
or the continue flag again, so finishing a cycle leaves the state as the
listener last set it. -/
def cycleComplete (s : SessionState) : SessionState := s

/-- Number of `self.on_text` invocations one completed
`_record_and_transcribe` cycle performs, given the captured audio, the
model, the integration-mode attribute and the interactive confirmation
answer.  `if audio_data:` and `if text:` are Python truthiness checks, so
empty bytes and the empty string short-circuit; a transcription exception
aborts the worker thread before any delivery. -/
def cycleCallbackCount (cfg : VoiceConfig) (integrationMode : Bool)
    (confirmAnswer : Bool) (model : WhisperModel)
    (audio : Option (List Byte)) : Nat :=
  match audio with
  | none => 0
  | some a =>
    if a = [] then 0
    else
      match transcribe model a with
      | .error _ => 0
      | .ok none => 0
      | .ok (some t) =>
        if t = "" then 0
        else if cfg.auto_submit || integrationMode then 1
        else if confirmAnswer then 1 else 0

/-- An event observed by the session: a key press, a key release, or the
completion of one in-flight worker. -/
inductive SessionEvent
  | press (k : Key)
  | release (k : Key)
  | workerDone
deriving Repr, DecidableEq

/-- Session state plus the number of spawned-but-unfinished capture
workers. -/
structure SysState where
  sess : SessionState
  workers : Nat
deriving Repr, DecidableEq

/-- One interleaving step of the listener/worker system: presses may spawn
a worker (which immediately sets the continue flag), releases run
`_on_key_release`, and a worker finishing runs `cycleComplete` and retires. -/
def sysStep (cfg : VoiceConfig) (st : SysState) : SessionEvent → SysState
  | .press k =>
    let ps := onKeyPress cfg st.sess k
    if ps.2 then { sess := workerStart ps.1, workers := st.workers + 1 }
    else { sess := ps.1, workers := st.workers }
  | .release k => { st with sess := onKeyRelease cfg st.sess k }
  | .workerDone => { sess := cycleComplete st.sess, workers := st.workers - 1 }

/-- Run a list of events from a system state. -/
def sysRun (cfg : VoiceConfig) (st : SysState) (evs : List SessionEvent) : SysState :=
  evs.foldl (sysStep cfg) st

/-! ## Configuration loading (`VoiceConfig.from_file`) -/

/-- A JSON value stored in a persisted configuration record.  The dataclass
constructor never inspects values (Python dataclasses do not type-check
fields), so values stay dynamic. -/
inductive JVal
  | str (s : String)
  | num (q : ℚ)
  | bool (b : Bool)
  | null
deriving Repr, DecidableEq

/-- The `VoiceConfig` object as built by `cls(**data)`: every field holds
whatever JSON value the record supplied (or the dataclass default). -/
structure VoiceConfigObj where
  push_to_talk_key : JVal
  whisper_model : JVal
  language : JVal
  sample_rate : JVal
  channels : JVal
  chunk_size : JVal
  silence_threshold : JVal
  silence_duration : JVal
  max_recording_time : JVal
  auto_submit : JVal
  show_audio_levels : JVal
deriving Repr, DecidableEq

/-- `cls()`: the object holding the dataclass defaults. -/
def VoiceConfigObj.default : VoiceConfigObj :=
  { push_to_talk_key := .str "right_shift"
    whisper_model := .str "base"
    language := .str "en"
    sample_rate := .num 16000
    channels := .num 1
    chunk_size := .num 1024
    silence_threshold := .num 100
    silence_duration := .num (3 / 2)
    max_recording_time := .num 30
    auto_submit := .bool false
    show_audio_levels := .bool true }

/-- Binding one keyword argument of `cls(**data)`: a known field name sets
that field, anything else raises `TypeError` (unexpected keyword
argument). -/
def setField (c : VoiceConfigObj) (kv : String × JVal) :
    Except String VoiceConfigObj :=
  if kv.1 = "push_to_talk_key" then .ok { c with push_to_talk_key := kv.2 }
  else if kv.1 = "whisper_model" then .ok { c with whisper_model := kv.2 }
  else if kv.1 = "language" then .ok { c with language := kv.2 }
  else if kv.1 = "sample_rate" then .ok { c with sample_rate := kv.2 }
  else if kv.1 = "channels" then .ok { c with channels := kv.2 }
  else if kv.1 = "chunk_size" then .ok { c with chunk_size := kv.2 }
  else if kv.1 = "silence_threshold" then .ok { c with silence_threshold := kv.2 }
  else if kv.1 = "silence_duration" then .ok { c with silence_duration := kv.2 }
  else if kv.1 = "max_recording_time" then .ok { c with max_recording_time := kv.2 }
  else if kv.1 = "auto_submit" then .ok { c with auto_submit := kv.2 }
  else if kv.1 = "show_audio_levels" then .ok { c with show_audio_levels := kv.2 }
  else .error ("unexpected keyword argument: " ++ kv.1)

/-- `cls(**data)` over the parsed record (key/value pairs of the JSON
dict). -/
def applyKwargs (data : List (String × JVal)) : Except String VoiceConfigObj :=
  data.foldlM setField VoiceConfigObj.default

/-- The field names the dataclass accepts as keyword arguments. -/
def voiceConfigFieldNames : List String :=
  ["push_to_talk_key", "whisper_model", "language", "sample_rate",
   "channels", "chunk_size", "silence_threshold", "silence_duration",
   "max_recording_time", "auto_submit", "show_audio_levels"]

/-- `VoiceConfig.from_file`.  The argument models the file system: `none`
when the path does not exist (then `cls()` defaults are returned),
`some (.error e)` when `json.load` raises (the exception propagates — there
is no handler), and `some (.ok data)` for a parsed dict.  Exactly the two
deprecated keys `whisper_mode` and `api_key` are popped before the
constructor call. -/
def from_file (file : Option (Except String (List (String × JVal)))) :
    Except String VoiceConfigObj :=
  match file with
  | none => .ok VoiceConfigObj.default
  | some (.error e) => .error e
  | some (.ok data) =>
    let data := data.filter (fun kv => kv.1 ≠ "whisper_mode")
    let data := data.filter (fun kv => kv.1 ≠ "api_key")
    applyKwargs data

/-- Modelled from the spec: the spec's silence-expiry predicate, "a run is
expired when `now - start >= silence_duration`" (used only to compare with
the code's strict comparison). -/
def specSilenceExpired (now start silence_duration : ℚ) : Bool :=
  decide (silence_duration ≤ now - start)

/-- `[low]*k + [high] + [low]*k` as a trace with a uniform chunk duration
`dt`: chunk `i` is read between the clock readings `i * dt` and
`(i + 1) * dt`, and the key stays held throughout. -/
def uniformSilentSeg (c : List Byte) (dt : ℚ) (lo len : Nat) : List IterInput :=
  (List.range len).map (fun (j : Nat) =>
    ⟨((lo : ℚ) + (j : ℚ)) * dt, c, ((lo : ℚ) + (j : ℚ) + 1) * dt, true⟩)

/-- The level sequence `[low]*k + [high] + [low]*k` of claim C6, with
uniform chunk duration `dt`. -/
def uniformTrace (silent loud : List Byte) (k : Nat) (dt : ℚ) : List IterInput :=
  uniformSilentSeg silent dt 0 k
    ++ [⟨(k : ℚ) * dt, loud, ((k : ℚ) + 1) * dt, true⟩]
    ++ uniformSilentSeg silent dt (k + 1) k

/-!
## Theorems

Helper lemmas are shared; each claim is settled by one named theorem
(with a witness or counterexample where required).
-/

/-- The mean of squares is non-negative. -/
theorem meanOfSquares_nonneg (l : List Int) : 0 ≤ meanOfSquares l := by
  unfold meanOfSquares
  apply div_nonneg
  · apply List.sum_nonneg
    intro x hx
    obtain ⟨s, _, rfl⟩ := List.mem_map.mp hx
    positivity
  · positivity

/-- The mean-square level of any byte buffer is non-negative. -/
theorem meanSquare_nonneg (data : List Byte) : 0 ≤ meanSquare data := by
  unfold meanSquare
  cases h : bytesToInt16 data with
  | none => exact le_refl 0
  | some samples =>
    cases samples with
    | nil => exact le_refl 0
    | cons s rest => exact meanOfSquares_nonneg _

/-- The RMS level is the square root of the mean-square level. -/
theorem get_audio_level_eq_sqrt (data : List Byte) :
    get_audio_level data = Real.sqrt ((meanSquare data : ℚ) : ℝ) := by
  unfold get_audio_level meanSquare
  cases h : bytesToInt16 data with
  | none => simp
  | some samples =>
    cases samples with
    | nil => simp
    | cons s rest => rfl

/-- The Boolean silence test used by the executable loop agrees with the
real comparison `get_audio_level data < t` performed by the code. -/
theorem levelBelow_iff (data : List Byte) (t : ℚ) :
    levelBelow data t = true ↔ get_audio_level data < (t : ℝ) := by
  rw [get_audio_level_eq_sqrt]
  unfold levelBelow
  rw [decide_eq_true_iff]
  constructor
  · rintro ⟨ht, hm⟩
    have ht' : (0 : ℝ) < (t : ℚ) := by exact_mod_cast ht
    rw [Real.sqrt_lt' ht']
    calc ((meanSquare data : ℚ) : ℝ) < (((t : ℚ) ^ 2 : ℚ) : ℝ) := by exact_mod_cast hm
    _ = ((t : ℚ) : ℝ) ^ 2 := by push_cast; ring
  · intro h
    have hnn : (0 : ℝ) ≤ Real.sqrt ((meanSquare data : ℚ) : ℝ) := Real.sqrt_nonneg _
    have ht' : (0 : ℝ) < ((t : ℚ) : ℝ) := lt_of_le_of_lt hnn h
    have ht : (0 : ℚ) < t := by exact_mod_cast ht'
    refine ⟨ht, ?_⟩
    have hm := (Real.sqrt_lt' ht').mp h
    have : ((meanSquare data : ℚ) : ℝ) < (((t : ℚ) ^ 2 : ℚ) : ℝ) := by
      calc ((meanSquare data : ℚ) : ℝ) < ((t : ℚ) : ℝ) ^ 2 := hm
      _ = (((t : ℚ) ^ 2 : ℚ) : ℝ) := by push_cast; ring
    exact_mod_cast this

/-- C10: `get_audio_level` is total with a non-negative result, and yields
exactly 0 on decode failure (a buffer of odd length) and on an empty
buffer; for int16 data the RMS is always a well-defined finite quantity, so
the NaN/infinity guard never fires. -/
theorem get_audio_level_total_nonneg (data : List Byte) :
    0 ≤ get_audio_level data ∧
    (bytesToInt16 data = none → get_audio_level data = 0) ∧
    (data = [] → get_audio_level data = 0) := by
  refine ⟨?_, ?_, ?_⟩
  · rw [get_audio_level_eq_sqrt]; exact Real.sqrt_nonneg _
  · intro h; unfold get_audio_level; rw [h]
  · rintro rfl; rfl

/-- C10 witness: an odd-length buffer decodes to nothing and evaluates to
level 0, which is non-negative. -/
theorem get_audio_level_total_nonneg_witness :
    0 ≤ get_audio_level [5] ∧ get_audio_level [5] = 0 :=
  ⟨(get_audio_level_total_nonneg [5]).1,
   (get_audio_level_total_nonneg [5]).2.1 rfl⟩

/-- C7 counterexample: with the trigger configured as the space form
"right shift", the side-alias rule rewrites only the configured name (to
`shift_r`), never the event name, so an event named `right_shift` is
rejected even though the claim expects it to be accepted. -/
theorem space_trigger_rejects_right_shift_event :
    matchesHotkey "right shift" (.named "right_shift") = false ∧
    matchesHotkey "right shift" (.named "shift_r") = true := by
  constructor <;> rfl

/-- C7 (amended): with the trigger configured as `right_shift` (the
underscore form, the default), matching accepts events named `shift_r` and
`right_shift`, rejects `shift_l`, is case-insensitive on both sides, and
performs no other fuzzy matching (neither the bare base name nor a
character key matches). -/
theorem underscore_trigger_aliases :
    matchesHotkey "right_shift" (.named "shift_r") = true ∧
    matchesHotkey "right_shift" (.named "right_shift") = true ∧
    matchesHotkey "right_shift" (.named "shift_l") = false ∧
    matchesHotkey "right_shift" (.named "SHIFT_R") = true ∧
    matchesHotkey "RIGHT_SHIFT" (.named "shift_r") = true ∧
    matchesHotkey "right_shift" (.named "shift") = false ∧
    matchesHotkey "right_shift" (.char "r") = false := by
  refine ⟨?_, ?_, ?_, ?_, ?_, ?_, ?_⟩ <;> rfl

/-- C8 counterexample: a persisted record with one unknown (not deprecated)
field makes loading raise `TypeError` instead of ignoring the field, and
malformed JSON makes loading raise instead of falling back to the default
configuration. -/
theorem from_file_rejects_unknown_field :
    from_file (some (.ok [("font_size", .num 12)]))
      = .error "unexpected keyword argument: font_size" ∧
    from_file (some (.error "Expecting value: line 1 column 1"))
      = .error "Expecting value: line 1 column 1" := by
  constructor <;> rfl

/-- C8 (amended): loading tolerates exactly the two deprecated fields
`whisper_mode` and `api_key` (they are popped before the constructor call);
a missing file yields the defaults; but a malformed file propagates the
parse error, and any other unknown field raises `TypeError` — neither falls
back to the default configuration. -/
theorem from_file_behavior :
    from_file none = .ok VoiceConfigObj.default ∧
    (∀ e, from_file (some (.error e)) = .error e) ∧
    (∀ v d, from_file (some (.ok (("whisper_mode", v) :: d)))
      = from_file (some (.ok d))) ∧
    (∀ v d, from_file (some (.ok (("api_key", v) :: d)))
      = from_file (some (.ok d))) ∧
    (∀ k v, k ∉ voiceConfigFieldNames → ¬k = "whisper_mode" → ¬k = "api_key" →
      from_file (some (.ok [(k, v)]))
        = .error ("unexpected keyword argument: " ++ k)) := by
  refine ⟨rfl, fun e => rfl, ?_, ?_, ?_⟩
  · intro v d
    simp [from_file, List.filter_cons]
  · intro v d
    simp [from_file, List.filter_cons]
  · intro k v hk hwm hak
    have hfields : ¬k = "push_to_talk_key" ∧ ¬k = "whisper_model" ∧
        ¬k = "language" ∧ ¬k = "sample_rate" ∧ ¬k = "channels" ∧
        ¬k = "chunk_size" ∧ ¬k = "silence_threshold" ∧
        ¬k = "silence_duration" ∧ ¬k = "max_recording_time" ∧
        ¬k = "auto_submit" ∧ ¬k = "show_audio_levels" := by
      simp [voiceConfigFieldNames] at hk
      tauto
    obtain ⟨h1, h2, h3, h4, h5, h6, h7, h8, h9, h10, h11⟩ := hfields
    simp [from_file, List.filter_cons, hwm, hak, applyKwargs, setField,
      h1, h2, h3, h4, h5, h6, h7, h8, h9, h10, h11]

/-- C8 witness: the theorem applied to the record holding only the unknown
field `font_size`, to an error file, and to a record led by a deprecated
field. -/
theorem from_file_behavior_witness :
    from_file (some (.ok [("font_size", JVal.str "x")]))
      = .error ("unexpected keyword argument: " ++ "font_size") ∧
    from_file (some (.error "bad")) = .error "bad" ∧
    from_file (some (.ok [("api_key", JVal.str "k"), ("language", JVal.str "fr")]))
      = from_file (some (.ok [("language", JVal.str "fr")])) :=
  ⟨from_file_behavior.2.2.2.2 "font_size" (JVal.str "x") (by decide)
      (by decide) (by decide),
   from_file_behavior.2.1 "bad",
   from_file_behavior.2.2.2.1 (JVal.str "k") [("language", JVal.str "fr")]⟩

/-- C3 counterexample: a transcription error is not caught — it propagates
out of `transcribe` — and recognized text that trims to the empty string is
returned as the empty string, not as an absent result. -/
theorem transcribe_propagates_error_and_empty_string :
    transcribe (fun _ => .error "whisper failed") [0] = .error "whisper failed" ∧
    transcribe (fun _ => .ok "   ") [0] = .ok (some "") := by
  constructor <;> rfl

/-- C3 (amended): empty audio short-circuits to an absent result without
invoking the model; for non-empty audio the model's text is returned
trimmed — possibly as the empty string — and any error the model raises
propagates to the caller uncaught. -/
theorem transcribe_characterization :
    (∀ model : WhisperModel, transcribe model [] = .ok none) ∧
    (∀ (model : WhisperModel) (audio : List Byte) (e : String),
      audio ≠ [] → model audio = .error e → transcribe model audio = .error e) ∧
    (∀ (model : WhisperModel) (audio : List Byte) (t : String),
      audio ≠ [] → model audio = .ok t →
      transcribe model audio = .ok (some (pyStrip t))) := by
  refine ⟨fun model => rfl, ?_, ?_⟩
  · intro model audio e ha hm
    simp [transcribe, transcribe_local, ha, hm, Except.map]
  · intro model audio t ha hm
    simp [transcribe, transcribe_local, ha, hm, Except.map]

/-- C3 witness: the characterization applied at empty audio, at a failing
model, and at a model returning padded text. -/
theorem transcribe_characterization_witness :
    transcribe (fun _ => .ok "x") [] = .ok none ∧
    transcribe (fun _ => .error "boom") [0, 0] = .error "boom" ∧
    transcribe (fun _ => .ok " hi ") [0, 0] = .ok (some (pyStrip " hi ")) :=
  ⟨transcribe_characterization.1 (fun _ => .ok "x"),
   transcribe_characterization.2.1 (fun _ => .error "boom") [0, 0] "boom"
     (by decide) rfl,
   transcribe_characterization.2.2 (fun _ => .ok " hi ") [0, 0] " hi "
     (by decide) rfl⟩

/-- C1 counterexample: while a cycle is in flight (recording flag set,
continue signal set), a matching key release does not merely clear the
continue signal — it also resets the recording flag at once; and the worker
finishing its cycle leaves the state untouched, so completion never
performs the `Recording` to `Idle` transition the claim describes. -/
theorem key_release_forces_idle :
    onKeyRelease VoiceConfig.default ⟨true, true, some true⟩ (.named "shift_r")
      = ⟨true, false, some false⟩ ∧
    cycleComplete ⟨true, true, some true⟩ = ⟨true, true, some true⟩ := by
  constructor <;> rfl

/-- C1 (amended): a matching key release immediately clears both the
recording flag (reopening the key-press gate) and, when the recorder
attribute exists, the shared continue signal; completing the in-flight
cycle leaves the session state unchanged. -/
theorem release_clears_flag_and_signal (cfg : VoiceConfig) (s : SessionState)
    (k : Key) (h : matchesHotkey cfg.push_to_talk_key k = true) :
    onKeyRelease cfg s k
      = { s with recording := false,
                 shouldContinue := s.shouldContinue.map (fun _ => false) } ∧
    cycleComplete s = s := by
  refine ⟨?_, rfl⟩
  unfold onKeyRelease
  rw [if_pos h]
  cases s.shouldContinue <;> rfl

/-- C1 witness: the amended theorem applied to an in-flight state and the
default trigger. -/
theorem release_clears_flag_and_signal_witness :
    onKeyRelease VoiceConfig.default ⟨true, true, some true⟩ (.named "right_shift")
      = ⟨true, false, some false⟩ ∧
    cycleComplete (⟨true, true, some true⟩ : SessionState)
      = ⟨true, true, some true⟩ :=
  release_clears_flag_and_signal VoiceConfig.default ⟨true, true, some true⟩
    (.named "right_shift") (by decide)

/-- C2 counterexample: after press, release, press of the trigger — with
the first cycle still in flight (no worker completion event) — two workers
are active at once: the release reopened the gate, so the second press
spawned a new worker while the first was still running.  The claim's
"at most one capture cycle active at a time" fails. -/
theorem second_press_after_release_spawns_worker :
    (sysRun VoiceConfig.default ⟨initialSession, 0⟩
      [.press (.named "shift_r"), .release (.named "shift_r"),
       .press (.named "shift_r")]).workers = 2 := by
  rfl

/-- C2 (amended): while the recording flag is set, any key press — matching
or not — is a complete no-op (nothing spawned, nothing queued, state
unchanged), and one completed cycle invokes the callback at most once; but
since a matching release clears the flag immediately, a press arriving
after release and before cycle completion spawns a second concurrent
worker. -/
theorem press_while_recording_is_noop_and_single_callback :
    (∀ (cfg : VoiceConfig) (st : SysState) (k : Key),
      st.sess.recording = true → sysStep cfg st (.press k) = st) ∧
    (∀ (cfg : VoiceConfig) (im ca : Bool) (model : WhisperModel)
      (audio : Option (List Byte)),
      cycleCallbackCount cfg im ca model audio ≤ 1) := by
  constructor
  · intro cfg st k h
    simp [sysStep, onKeyPress, h]
  · intro cfg im ca model audio
    unfold cycleCallbackCount
    rcases audio with _ | a
    · exact Nat.zero_le 1
    · by_cases ha : a = []
      · simp [ha]
      · simp only [ha, if_false]
        cases transcribe model a with
        | error e => exact Nat.zero_le 1
        | ok t =>
          rcases t with _ | t
          · exact Nat.zero_le 1
          · by_cases ht : t = ""
            · simp [ht]
            · simp only [ht, if_false]
              by_cases hauto : (cfg.auto_submit || im) = true
              · simp [hauto]
              · simp only [hauto, if_false]
                by_cases hc : ca = true <;> simp [hc]

/-- C2 witness: the amended theorem applied to a recording state and to a
concrete delivery cycle. -/
theorem press_while_recording_witness :
    sysStep VoiceConfig.default ⟨⟨true, true, some true⟩, 1⟩
      (.press (.named "shift_r")) = ⟨⟨true, true, some true⟩, 1⟩ ∧
    cycleCallbackCount VoiceConfig.default true true
      (fun _ => .ok "hello world") (some [0, 0]) ≤ 1 :=
  ⟨press_while_recording_is_noop_and_single_callback.1 VoiceConfig.default
      ⟨⟨true, true, some true⟩, 1⟩ (.named "shift_r") rfl,
   press_while_recording_is_noop_and_single_callback.2 VoiceConfig.default
      true true (fun _ => .ok "hello world") (some [0, 0])⟩

/-- Concrete evaluation: a one-sample chunk with value 0 is below the
default threshold 100. -/
theorem levelBelow_chunk0 : levelBelow [0, 0] 100 = true := by
  have hz : ((0 : Fin 256) : Nat) = 0 := rfl
  simp only [levelBelow, decide_eq_true_eq, meanSquare, bytesToInt16,
    decodeInt16, meanOfSquares, hz]
  norm_num

/-- Concrete evaluation: a one-sample chunk with value 1 is below the
default threshold 100. -/
theorem levelBelow_chunk1 : levelBelow [1, 0] 100 = true := by
  have hz : ((0 : Fin 256) : Nat) = 0 := rfl
  have ho : ((1 : Fin 256) : Nat) = 1 := rfl
  simp only [levelBelow, decide_eq_true_eq, meanSquare, bytesToInt16,
    decodeInt16, meanOfSquares, hz, ho]
  norm_num

/-- Concrete evaluation: a one-sample chunk with value 2 is below the
default threshold 100. -/
theorem levelBelow_chunk2 : levelBelow [2, 0] 100 = true := by
  have hz : ((0 : Fin 256) : Nat) = 0 := rfl
  have ht : ((2 : Fin 256) : Nat) = 2 := rfl
  simp only [levelBelow, decide_eq_true_eq, meanSquare, bytesToInt16,
    decodeInt16, meanOfSquares, hz, ht]
  norm_num

/-- Concrete evaluation: a one-sample chunk with value 300 (bytes 44, 1) is
above the default threshold 100. -/
theorem levelBelow_chunk300 : levelBelow [44, 1] 100 = false := by
  have ha : ((44 : Fin 256) : Nat) = 44 := rfl
  have hb : ((1 : Fin 256) : Nat) = 1 := rfl
  simp only [levelBelow, meanSquare, bytesToInt16, decodeInt16,
    meanOfSquares, ha, hb]
  norm_num

/-- Running the loop on an exhausted trace leaves it running. -/
theorem recordLoop_nil (cfg : VoiceConfig) (start : ℚ) (frames disp : List (List Byte))
    (ss : Option ℚ) : recordLoop cfg start [] frames disp ss = ⟨frames, disp, .running ss⟩ :=
  rfl

/-- Step lemma: an exceeded max-recording-time check stops the loop before
reading, whatever the chunk, silence state and continue flag hold. -/
theorem step_max (cfg : VoiceConfig) (start : ℚ) (inp : IterInput)
    (rest : List IterInput) (frames disp : List (List Byte)) (ss : Option ℚ)
    (h1 : inp.t1 - start > cfg.max_recording_time) :
    recordLoop cfg start (inp :: rest) frames disp ss
      = ⟨frames, disp, .stopped .maxTime⟩ := by
  cases ss <;> simp [recordLoop, h1]

/-- Step lemma: a silent chunk with no silence run in progress records the
current clock as the run start and continues. -/
theorem step_silent_fresh (cfg : VoiceConfig) (start : ℚ) (inp : IterInput)
    (rest : List IterInput) (frames disp : List (List Byte))
    (h1 : ¬inp.t1 - start > cfg.max_recording_time)
    (h2 : levelBelow inp.chunk cfg.silence_threshold = true)
    (h3 : inp.cont = true) :
    recordLoop cfg start (inp :: rest) frames disp none
      = recordLoop cfg start rest (frames ++ [inp.chunk])
          (dispAfter cfg frames disp inp.chunk) (some inp.t2) := by
  simp [recordLoop, h1, h2, h3]

/-- Step lemma: a silent chunk inside an unexpired run keeps the run start
and continues. -/
theorem step_silent_cont (cfg : VoiceConfig) (start : ℚ) (inp : IterInput)
    (rest : List IterInput) (frames disp : List (List Byte)) (st : ℚ)
    (h1 : ¬inp.t1 - start > cfg.max_recording_time)
    (h2 : levelBelow inp.chunk cfg.silence_threshold = true)
    (h4 : ¬inp.t2 - st > cfg.silence_duration)
    (h3 : inp.cont = true) :
    recordLoop cfg start (inp :: rest) frames disp (some st)
      = recordLoop cfg start rest (frames ++ [inp.chunk])
          (dispAfter cfg frames disp inp.chunk) (some st) := by
  simp [recordLoop, h1, h2, h4, h3]

/-- Step lemma: a silent chunk whose run has strictly exceeded the silence
duration stops the loop via the silence path, with the chunk already
appended and before the continue flag is consulted. -/
theorem step_silence_stop (cfg : VoiceConfig) (start : ℚ) (inp : IterInput)
    (rest : List IterInput) (frames disp : List (List Byte)) (st : ℚ)
    (h1 : ¬inp.t1 - start > cfg.max_recording_time)
    (h2 : levelBelow inp.chunk cfg.silence_threshold = true)
    (h4 : inp.t2 - st > cfg.silence_duration) :
    recordLoop cfg start (inp :: rest) frames disp (some st)
      = ⟨frames ++ [inp.chunk], dispAfter cfg frames disp inp.chunk,
          .stopped .silence⟩ := by
  simp [recordLoop, h1, h2, h4]

/-- Step lemma: a loud chunk fully resets the silence run, whatever state
the run was in, and continues. -/
theorem step_loud (cfg : VoiceConfig) (start : ℚ) (inp : IterInput)
    (rest : List IterInput) (frames disp : List (List Byte)) (ss : Option ℚ)
    (h1 : ¬inp.t1 - start > cfg.max_recording_time)
    (h2 : levelBelow inp.chunk cfg.silence_threshold = false)
    (h3 : inp.cont = true) :
    recordLoop cfg start (inp :: rest) frames disp ss
      = recordLoop cfg start rest (frames ++ [inp.chunk])
          (dispAfter cfg frames disp inp.chunk) none := by
  cases ss <;> simp [recordLoop, h1, h2, h3]

/-- Step lemma: a cleared continue flag stops the loop via the release path
at the end of the iteration, provided no earlier stop fired. -/
theorem step_released (cfg : VoiceConfig) (start : ℚ) (inp : IterInput)
    (rest : List IterInput) (frames disp : List (List Byte)) (ss : Option ℚ)
    (h1 : ¬inp.t1 - start > cfg.max_recording_time)
    (h3 : inp.cont = false)
    (hns : ∀ st, ss = some st →
      levelBelow inp.chunk cfg.silence_threshold = true →
      ¬inp.t2 - st > cfg.silence_duration) :
    recordLoop cfg start (inp :: rest) frames disp ss
      = ⟨frames ++ [inp.chunk], dispAfter cfg frames disp inp.chunk,
          .stopped .released⟩ := by
  cases ss with
  | none =>
    by_cases h2 : levelBelow inp.chunk cfg.silence_threshold = true
    · simp [recordLoop, h1, h2, h3]
    · simp only [Bool.not_eq_true] at h2
      simp [recordLoop, h1, h2, h3]
  | some st =>
    by_cases h2 : levelBelow inp.chunk cfg.silence_threshold = true
    · simp [recordLoop, h1, h2, h3, hns st rfl h2]
    · simp only [Bool.not_eq_true] at h2
      simp [recordLoop, h1, h2, h3]

/-- A stopped run accumulated exactly the chunks of a prefix of the trace,
in read order, on top of the frames it started from. -/
theorem recordLoop_frames_shape (cfg : VoiceConfig) (start : ℚ) :
    ∀ (l : List IterInput) (acc disp : List (List Byte)) (ss : Option ℚ)
      (frames d : List (List Byte)) (r : StopReason),
      recordLoop cfg start l acc disp ss = ⟨frames, d, .stopped r⟩ →
      ∃ n, n ≤ l.length ∧ frames = acc ++ (l.take n).map IterInput.chunk := by
  intro l
  induction l with
  | nil =>
    intro acc disp ss frames d r h
    rw [recordLoop_nil] at h
    injection h with hf hd hs
    exact absurd hs (by simp)
  | cons inp rest ih =>
    intro acc disp ss frames d r h
    have next : ∀ (d2 : List (List Byte)) (ss2 : Option ℚ),
        recordLoop cfg start rest (acc ++ [inp.chunk]) d2 ss2
          = ⟨frames, d, .stopped r⟩ →
        ∃ n, n ≤ (inp :: rest).length
          ∧ frames = acc ++ ((inp :: rest).take n).map IterInput.chunk := by
      intro d2 ss2 hrec
      obtain ⟨n, hn, hf⟩ := ih _ _ _ _ _ _ hrec
      exact ⟨n + 1, by simp only [List.length_cons]; omega,
        by rw [hf, List.take_succ_cons, List.map_cons, ← List.append_cons]⟩
    have halt : ∀ (d2 : List (List Byte)) (r2 : StopReason),
        (⟨acc ++ [inp.chunk], d2, .stopped r2⟩ : RunResult)
          = ⟨frames, d, .stopped r⟩ →
        ∃ n, n ≤ (inp :: rest).length
          ∧ frames = acc ++ ((inp :: rest).take n).map IterInput.chunk := by
      intro d2 r2 hstop
      injection hstop with hf hd hs
      exact ⟨1, by simp, by simp [← hf]⟩
    by_cases h1 : inp.t1 - start > cfg.max_recording_time
    · rw [step_max cfg start inp rest acc disp ss h1] at h
      injection h with hf hd hs
      exact ⟨0, Nat.zero_le _, by simp [← hf]⟩
    · by_cases h2 : levelBelow inp.chunk cfg.silence_threshold = true
      · cases ss with
        | none =>
          by_cases h3 : inp.cont = true
          · have hstep := step_silent_fresh cfg start inp rest acc disp h1 h2 h3
            rw [hstep] at h
            exact next _ _ h
          · have h3f : inp.cont = false := by simpa using h3
            have hstep := step_released cfg start inp rest acc disp none h1 h3f
              (by intro st hst; cases hst)
            rw [hstep] at h
            exact halt _ _ h
        | some st =>
          by_cases h4 : inp.t2 - st > cfg.silence_duration
          · have hstep := step_silence_stop cfg start inp rest acc disp st h1 h2 h4
            rw [hstep] at h
            exact halt _ _ h
          · by_cases h3 : inp.cont = true
            · have hstep := step_silent_cont cfg start inp rest acc disp st h1 h2 h4 h3
              rw [hstep] at h
              exact next _ _ h
            · have h3f : inp.cont = false := by simpa using h3
              have hstep := step_released cfg start inp rest acc disp (some st) h1 h3f
                (by intro st2 hst2 hlb; cases hst2; exact h4)
              rw [hstep] at h
              exact halt _ _ h
      · have h2f : levelBelow inp.chunk cfg.silence_threshold = false := by simpa using h2
        by_cases h3 : inp.cont = true
        · have hstep := step_loud cfg start inp rest acc disp ss h1 h2f h3
          rw [hstep] at h
          exact next _ _ h
        · have h3f : inp.cont = false := by simpa using h3
          have hstep := step_released cfg start inp rest acc disp ss h1 h3f
            (by intro st hst hlb; rw [hlb] at h2f; cases h2f)
          rw [hstep] at h
          exact halt _ _ h

/-- C4: when `capture()` completes, the result is absent exactly when zero
chunks were read before the stop condition fired; otherwise it is the
concatenation, in read order, of exactly the chunks read during the call. -/
theorem record_audio_absent_iff_no_chunks (cfg : VoiceConfig) (start : ℚ)
    (trace : List IterInput) (out : Option (List Byte))
    (h : record_audio cfg start trace = some out) :
    ∃ n, n ≤ trace.length ∧
      ((n = 0 ∧ out = none) ∨
       (0 < n ∧ out = some (((trace.take n).map IterInput.chunk).flatten))) := by
  unfold record_audio at h
  cases hres : recordLoop cfg start trace [] [] none with
  | mk frames d status =>
    rw [hres] at h
    cases status with
    | running ss => simp at h
    | stopped r =>
      simp only [Option.some.injEq] at h
      obtain ⟨n, hn, hf⟩ := recordLoop_frames_shape cfg start trace [] [] none
        frames d r hres
      simp only [List.nil_append] at hf
      refine ⟨n, hn, ?_⟩
      by_cases hz : n = 0
      · subst hz
        simp only [List.take_zero, List.map_nil] at hf
        left
        exact ⟨rfl, by simp [← h, hf]⟩
      · right
        refine ⟨Nat.pos_of_ne_zero hz, ?_⟩
        have htr : trace ≠ [] := by
          intro hcon
          subst hcon
          simp at hn
          exact hz hn
        have hne : frames ≠ [] := by
          rw [hf]
          simp only [ne_eq, List.map_eq_nil_iff, List.take_eq_nil_iff]
          push_neg
          exact ⟨hz, htr⟩
        rw [← h, if_neg hne, hf]

/-- Concrete two-chunk capture: one silent chunk, then the release stops
the loop at the end of the second iteration; both chunks are returned
joined. -/
theorem record_audio_two_chunk_run :
    record_audio VoiceConfig.default 0
      [⟨0, [1, 0], 0, true⟩, ⟨1, [2, 0], 1, false⟩] = some (some [1, 0, 2, 0]) := by
  have hstep1 := step_silent_fresh VoiceConfig.default 0
    ⟨0, [1, 0], 0, true⟩ [⟨1, [2, 0], 1, false⟩] [] []
    (by norm_num [VoiceConfig.default]) levelBelow_chunk1 rfl
  have e1 : recordLoop VoiceConfig.default 0
      [⟨0, [1, 0], 0, true⟩, ⟨1, [2, 0], 1, false⟩] [] [] none
      = recordLoop VoiceConfig.default 0 [⟨1, [2, 0], 1, false⟩] [[1, 0]]
          (dispAfter VoiceConfig.default [] [] [1, 0]) (some 0) := hstep1
  have hstep2 := step_released VoiceConfig.default 0
    ⟨1, [2, 0], 1, false⟩ [] [[1, 0]]
    (dispAfter VoiceConfig.default [] [] [1, 0]) (some 0)
    (by norm_num [VoiceConfig.default]) rfl
    (by intro st hst hlb
        injection hst with he
        rw [← he]
        norm_num [VoiceConfig.default])
  have e2 : recordLoop VoiceConfig.default 0 [⟨1, [2, 0], 1, false⟩]
      [[1, 0]] (dispAfter VoiceConfig.default [] [] [1, 0]) (some 0)
      = ⟨[[1, 0], [2, 0]],
          dispAfter VoiceConfig.default [[1, 0]]
            (dispAfter VoiceConfig.default [] [] [1, 0]) [2, 0],
          .stopped .released⟩ := hstep2
  unfold record_audio
  rw [e1, e2]
  simp

/-- C4 witness: a two-chunk run ended by key release returns the two chunks
concatenated in order. -/
theorem record_audio_absent_iff_no_chunks_witness :
    ∃ n, n ≤ ([⟨0, [1, 0], 0, true⟩, ⟨1, [2, 0], 1, false⟩] : List IterInput).length ∧
      ((n = 0 ∧ (some [1, 0, 2, 0] : Option (List Byte)) = none) ∨
       (0 < n ∧ (some [1, 0, 2, 0] : Option (List Byte)) =
          some (((([⟨0, [1, 0], 0, true⟩, ⟨1, [2, 0], 1, false⟩] :
            List IterInput).take n).map IterInput.chunk).flatten))) :=
  record_audio_absent_iff_no_chunks VoiceConfig.default 0
    [⟨0, [1, 0], 0, true⟩, ⟨1, [2, 0], 1, false⟩] (some [1, 0, 2, 0])
    record_audio_two_chunk_run

/-- C5 counterexample: with elapsed time exactly equal to
`max_recording_time` (30 at the start of the iteration, start time 0), the
loop does not stop — the code compares with strict `>` — although the claim
asserts that elapsed `>=` max stops the loop. -/
theorem elapsed_equal_max_does_not_stop :
    (recordLoop VoiceConfig.default 0 [⟨30, [0, 0], 30, true⟩] [] [] none).status
      = .running (some 30) ∧
    VoiceConfig.default.max_recording_time ≤ 30 - 0 := by
  constructor
  · have hstep := step_silent_fresh VoiceConfig.default 0
      ⟨30, [0, 0], 30, true⟩ [] [] []
      (by norm_num [VoiceConfig.default]) levelBelow_chunk0 rfl
    have e1 : recordLoop VoiceConfig.default 0 [⟨30, [0, 0], 30, true⟩] [] [] none
        = recordLoop VoiceConfig.default 0 [] [[0, 0]]
            (dispAfter VoiceConfig.default [] [] [0, 0]) (some 30) := hstep
    rw [e1, recordLoop_nil]
  · norm_num [VoiceConfig.default]

/-- Once some iteration's clock reading strictly exceeds the cap, the loop
inevitably stops (by that iteration at the latest), having read at most as
many chunks as there were earlier iterations. -/
theorem recordLoop_stops_of_exceed (cfg : VoiceConfig) (start : ℚ) :
    ∀ (l : List IterInput) (acc disp : List (List Byte)) (ss : Option ℚ)
      (i : Nat) (hi : i < l.length),
      (l.get ⟨i, hi⟩).t1 - start > cfg.max_recording_time →
      ∃ frames d r, recordLoop cfg start l acc disp ss = ⟨frames, d, .stopped r⟩ ∧
        frames.length ≤ acc.length + i := by
  intro l
  induction l with
  | nil =>
    intro acc disp ss i hi
    exact absurd hi (by simp)
  | cons inp rest ih =>
    intro acc disp ss i hi hexc
    by_cases h1 : inp.t1 - start > cfg.max_recording_time
    · exact ⟨acc, disp, .maxTime, step_max cfg start inp rest acc disp ss h1,
        Nat.le_add_right _ _⟩
    · cases i with
      | zero => exact absurd (by simpa using hexc) h1
      | succ j =>
        have hj : j < rest.length := Nat.lt_of_succ_lt_succ hi
        have hexc2 : (rest.get ⟨j, hj⟩).t1 - start > cfg.max_recording_time := by
          simpa using hexc
        have next : ∀ (d2 : List (List Byte)) (ss2 : Option ℚ),
            ∃ frames d r, recordLoop cfg start rest (acc ++ [inp.chunk]) d2 ss2
                = ⟨frames, d, .stopped r⟩
              ∧ frames.length ≤ acc.length + (j + 1) := by
          intro d2 ss2
          obtain ⟨f, d3, r, heq, hlen⟩ := ih (acc ++ [inp.chunk]) d2 ss2 j hj hexc2
          refine ⟨f, d3, r, heq, ?_⟩
          simp only [List.length_append, List.length_cons, List.length_nil] at hlen
          omega
        by_cases h2 : levelBelow inp.chunk cfg.silence_threshold = true
        · cases ss with
          | none =>
            by_cases h3 : inp.cont = true
            · have hstep := step_silent_fresh cfg start inp rest acc disp h1 h2 h3
              obtain ⟨f, d3, r, heq, hlen⟩ := next _ (some inp.t2)
              exact ⟨f, d3, r, by rw [hstep]; exact heq, hlen⟩
            · have h3f : inp.cont = false := by simpa using h3
              have hstep := step_released cfg start inp rest acc disp none h1 h3f
                (by intro st hst; cases hst)
              exact ⟨acc ++ [inp.chunk], _, .released, hstep,
                by simp only [List.length_append, List.length_cons, List.length_nil]; omega⟩
          | some st =>
            by_cases h4 : inp.t2 - st > cfg.silence_duration
            · have hstep := step_silence_stop cfg start inp rest acc disp st h1 h2 h4
              exact ⟨acc ++ [inp.chunk], _, .silence, hstep,
                by simp only [List.length_append, List.length_cons, List.length_nil]; omega⟩
            · by_cases h3 : inp.cont = true
              · have hstep := step_silent_cont cfg start inp rest acc disp st h1 h2 h4 h3
                obtain ⟨f, d3, r, heq, hlen⟩ := next _ (some st)
                exact ⟨f, d3, r, by rw [hstep]; exact heq, hlen⟩
              · have h3f : inp.cont = false := by simpa using h3
                have hstep := step_released cfg start inp rest acc disp (some st) h1 h3f
                  (by intro st2 hst2 hlb; injection hst2 with he; rw [← he]; exact h4)
                exact ⟨acc ++ [inp.chunk], _, .released, hstep,
                  by simp only [List.length_append, List.length_cons, List.length_nil]; omega⟩
        · have h2f : levelBelow inp.chunk cfg.silence_threshold = false := by simpa using h2
          by_cases h3 : inp.cont = true
          · have hstep := step_loud cfg start inp rest acc disp ss h1 h2f h3
            obtain ⟨f, d3, r, heq, hlen⟩ := next _ none
            exact ⟨f, d3, r, by rw [hstep]; exact heq, hlen⟩
          · have h3f : inp.cont = false := by simpa using h3
            have hstep := step_released cfg start inp rest acc disp ss h1 h3f
              (by intro st hst hlb; rw [hlb] at h2f; cases h2f)
            exact ⟨acc ++ [inp.chunk], _, .released, hstep,
              by simp only [List.length_append, List.length_cons, List.length_nil]; omega⟩

/-- C5 (amended): the hard cap uses a strict comparison and runs before the
chunk read and every other stop check of its iteration, so an iteration
entered with elapsed time strictly above `max_recording_time` stops the
loop immediately — whatever the key state, audio levels and silence state —
and as soon as any iteration's clock strictly exceeds the cap, the run is
stopped having read at most the chunks of the earlier iterations (the cap
plus at most one chunk read). -/
theorem max_recording_time_hard_cap :
    (∀ (cfg : VoiceConfig) (start : ℚ) (inp : IterInput) (rest : List IterInput)
        (frames disp : List (List Byte)) (ss : Option ℚ),
      inp.t1 - start > cfg.max_recording_time →
      recordLoop cfg start (inp :: rest) frames disp ss
        = ⟨frames, disp, .stopped .maxTime⟩) ∧
    (∀ (cfg : VoiceConfig) (start : ℚ) (trace : List IterInput) (i : Nat)
        (hi : i < trace.length),
      (trace.get ⟨i, hi⟩).t1 - start > cfg.max_recording_time →
      ∃ frames d r, recordLoop cfg start trace [] [] none
          = ⟨frames, d, .stopped r⟩ ∧ frames.length ≤ i) := by
  constructor
  · intro cfg start inp rest frames disp ss h1
    exact step_max cfg start inp rest frames disp ss h1
  · intro cfg start trace i hi hexc
    obtain ⟨f, d, r, heq, hlen⟩ :=
      recordLoop_stops_of_exceed cfg start trace [] [] none i hi hexc
    exact ⟨f, d, r, heq, by simpa using hlen⟩

/-- C5 witness: a first iteration entered at 31 s (cap 30 s) stops at once
via the max-duration path with zero chunks read. -/
theorem max_recording_time_hard_cap_witness :
    recordLoop VoiceConfig.default 0 [⟨31, [0, 0], 31, true⟩] [] [] none
      = ⟨[], [], .stopped .maxTime⟩ ∧
    ∃ frames d r, recordLoop VoiceConfig.default 0 [⟨31, [0, 0], 31, true⟩] [] [] none
      = ⟨frames, d, .stopped r⟩ ∧ frames.length ≤ 0 :=
  ⟨max_recording_time_hard_cap.1 VoiceConfig.default 0 ⟨31, [0, 0], 31, true⟩
      [] [] [] none (by norm_num [VoiceConfig.default]),
   max_recording_time_hard_cap.2 VoiceConfig.default 0 [⟨31, [0, 0], 31, true⟩] 0
      (by norm_num) (by norm_num [VoiceConfig.default])⟩

/-- Changing only the show-levels flag (and the display accumulator)
changes neither the frames read nor the loop status at any point of any
run. -/
theorem recordLoop_display_flag_invariant (cfg : VoiceConfig) (b : Bool) (start : ℚ) :
    ∀ (l : List IterInput) (frames d1 d2 : List (List Byte)) (ss : Option ℚ),
      (recordLoop { cfg with show_audio_levels := b } start l frames d1 ss).frames
        = (recordLoop cfg start l frames d2 ss).frames ∧
      (recordLoop { cfg with show_audio_levels := b } start l frames d1 ss).status
        = (recordLoop cfg start l frames d2 ss).status := by
  intro l
  induction l with
  | nil => intro frames d1 d2 ss; exact ⟨rfl, rfl⟩
  | cons inp rest ih =>
    intro frames d1 d2 ss
    by_cases h1 : inp.t1 - start > cfg.max_recording_time
    · rw [step_max cfg start inp rest frames d2 ss h1,
        step_max { cfg with show_audio_levels := b } start inp rest frames d1 ss h1]
      exact ⟨rfl, rfl⟩
    · by_cases h2 : levelBelow inp.chunk cfg.silence_threshold = true
      · cases ss with
        | none =>
          by_cases h3 : inp.cont = true
          · have hstep1 := step_silent_fresh
              { cfg with show_audio_levels := b } start inp rest frames d1 h1 h2 h3
            have hstep2 := step_silent_fresh cfg start inp rest frames d2 h1 h2 h3
            rw [hstep1, hstep2]
            exact ih _ _ _ _
          · have h3f : inp.cont = false := by simpa using h3
            have hstep1 := step_released
              { cfg with show_audio_levels := b } start inp rest frames d1 none h1 h3f
              (by intro st hst; cases hst)
            have hstep2 := step_released cfg start inp rest frames d2 none h1 h3f
              (by intro st hst; cases hst)
            rw [hstep1, hstep2]
            exact ⟨rfl, rfl⟩
        | some st =>
          by_cases h4 : inp.t2 - st > cfg.silence_duration
          · have hstep1 := step_silence_stop
              { cfg with show_audio_levels := b } start inp rest frames d1 st h1 h2 h4
            have hstep2 := step_silence_stop cfg start inp rest frames d2 st h1 h2 h4
            rw [hstep1, hstep2]
            exact ⟨rfl, rfl⟩
          · by_cases h3 : inp.cont = true
            · have hstep1 := step_silent_cont
                { cfg with show_audio_levels := b } start inp rest frames d1 st h1 h2 h4 h3
              have hstep2 := step_silent_cont cfg start inp rest frames d2 st h1 h2 h4 h3
              rw [hstep1, hstep2]
              exact ih _ _ _ _
            · have h3f : inp.cont = false := by simpa using h3
              have hstep1 := step_released
                { cfg with show_audio_levels := b } start inp rest frames d1 (some st) h1 h3f
                (by intro st2 hst2 hlb; injection hst2 with he; rw [← he]; exact h4)
              have hstep2 := step_released cfg start inp rest frames d2 (some st) h1 h3f
                (by intro st2 hst2 hlb; injection hst2 with he; rw [← he]; exact h4)
              rw [hstep1, hstep2]
              exact ⟨rfl, rfl⟩
      · have h2f : levelBelow inp.chunk cfg.silence_threshold = false := by simpa using h2
        by_cases h3 : inp.cont = true
        · have hstep1 := step_loud
            { cfg with show_audio_levels := b } start inp rest frames d1 ss h1 h2f h3
          have hstep2 := step_loud cfg start inp rest frames d2 ss h1 h2f h3
          rw [hstep1, hstep2]
          exact ih _ _ _ _
        · have h3f : inp.cont = false := by simpa using h3
          have hstep1 := step_released
            { cfg with show_audio_levels := b } start inp rest frames d1 ss h1 h3f
            (by intro st hst hlb; rw [hlb] at h2f; cases h2f)
          have hstep2 := step_released cfg start inp rest frames d2 ss h1 h3f
            (by intro st hst hlb; rw [hlb] at h2f; cases h2f)
          rw [hstep1, hstep2]
          exact ⟨rfl, rfl⟩

/-- C9: the level-display flag is presentation-only — on the same
iteration trace, a run with the flag flipped reads the same frames, ends
with the same status (same stop condition), and returns the same audio
bytes. -/
theorem show_levels_presentation_only (cfg : VoiceConfig) (b : Bool) (start : ℚ)
    (trace : List IterInput) :
    (recordLoop { cfg with show_audio_levels := b } start trace [] [] none).frames
      = (recordLoop cfg start trace [] [] none).frames ∧
    (recordLoop { cfg with show_audio_levels := b } start trace [] [] none).status
      = (recordLoop cfg start trace [] [] none).status ∧
    record_audio { cfg with show_audio_levels := b } start trace
      = record_audio cfg start trace := by
  obtain ⟨hf, hs⟩ := recordLoop_display_flag_invariant cfg b start trace [] [] [] none
  refine ⟨hf, hs, ?_⟩
  unfold record_audio
  cases hr1 : recordLoop { cfg with show_audio_levels := b } start trace [] [] none with
  | mk f1 e1 s1 =>
    cases hr2 : recordLoop cfg start trace [] [] none with
    | mk f2 e2 s2 =>
      rw [hr1, hr2] at hf hs
      simp only at hf hs
      subst hf
      subst hs
      cases s1 with
      | stopped r => rfl
      | running ss => rfl

/-- A run that exhausts its trace while still running continues seamlessly
into any extension of the trace. -/
theorem recordLoop_append (cfg : VoiceConfig) (start : ℚ) :
    ∀ (xs ys : List IterInput) (frames disp : List (List Byte)) (ss : Option ℚ)
      (f2 d2 : List (List Byte)) (ss2 : Option ℚ),
      recordLoop cfg start xs frames disp ss = ⟨f2, d2, .running ss2⟩ →
      recordLoop cfg start (xs ++ ys) frames disp ss
        = recordLoop cfg start ys f2 d2 ss2 := by
  intro xs
  induction xs with
  | nil =>
    intro ys frames disp ss f2 d2 ss2 h
    rw [recordLoop_nil] at h
    injection h with hf hd hs
    injection hs with hss
    subst hf
    subst hd
    subst hss
    rfl
  | cons inp rest ih =>
    intro ys frames disp ss f2 d2 ss2 h
    rw [List.cons_append]
    by_cases h1 : inp.t1 - start > cfg.max_recording_time
    · rw [step_max cfg start inp rest frames disp ss h1] at h
      injection h with hf hd hs
      exact absurd hs (by simp)
    · by_cases h2 : levelBelow inp.chunk cfg.silence_threshold = true
      · cases ss with
        | none =>
          by_cases h3 : inp.cont = true
          · rw [step_silent_fresh cfg start inp rest frames disp h1 h2 h3] at h
            rw [step_silent_fresh cfg start inp (rest ++ ys) frames disp h1 h2 h3]
            exact ih ys _ _ _ f2 d2 ss2 h
          · have h3f : inp.cont = false := by simpa using h3
            rw [step_released cfg start inp rest frames disp none h1 h3f
              (by intro st hst; cases hst)] at h
            injection h with hf hd hs
            exact absurd hs (by simp)
        | some st =>
          by_cases h4 : inp.t2 - st > cfg.silence_duration
          · rw [step_silence_stop cfg start inp rest frames disp st h1 h2 h4] at h
            injection h with hf hd hs
            exact absurd hs (by simp)
          · by_cases h3 : inp.cont = true
            · rw [step_silent_cont cfg start inp rest frames disp st h1 h2 h4 h3] at h
              rw [step_silent_cont cfg start inp (rest ++ ys) frames disp st h1 h2 h4 h3]
              exact ih ys _ _ _ f2 d2 ss2 h
            · have h3f : inp.cont = false := by simpa using h3
              rw [step_released cfg start inp rest frames disp (some st) h1 h3f
                (by intro st2 hst2 hlb; injection hst2 with he; rw [← he]; exact h4)] at h
              injection h with hf hd hs
              exact absurd hs (by simp)
      · have h2f : levelBelow inp.chunk cfg.silence_threshold = false := by simpa using h2
        by_cases h3 : inp.cont = true
        · rw [step_loud cfg start inp rest frames disp ss h1 h2f h3] at h
          rw [step_loud cfg start inp (rest ++ ys) frames disp ss h1 h2f h3]
          exact ih ys _ _ _ f2 d2 ss2 h
        · have h3f : inp.cont = false := by simpa using h3
          rw [step_released cfg start inp rest frames disp ss h1 h3f
            (by intro st hst hlb; rw [hlb] at h2f; cases h2f)] at h
          injection h with hf hd hs
          exact absurd hs (by simp)

/-- A run of silent chunks whose clock readings all stay within the
(strict) silence window of an in-progress run, with the key held and the
cap unreached, reads every chunk and keeps the original run start. -/
theorem recordLoop_silent_run (cfg : VoiceConfig) (start : ℚ) :
    ∀ (l : List IterInput) (frames disp : List (List Byte)) (st : ℚ),
      (∀ inp ∈ l, levelBelow inp.chunk cfg.silence_threshold = true) →
      (∀ inp ∈ l, inp.cont = true) →
      (∀ inp ∈ l, ¬inp.t1 - start > cfg.max_recording_time) →
      (∀ inp ∈ l, ¬inp.t2 - st > cfg.silence_duration) →
      ∃ d, recordLoop cfg start l frames disp (some st)
        = ⟨frames ++ l.map IterInput.chunk, d, .running (some st)⟩ := by
  intro l
  induction l with
  | nil =>
    intro frames disp st _ _ _ _
    exact ⟨disp, by rw [recordLoop_nil]; simp⟩
  | cons inp rest ih =>
    intro frames disp st hlb hcont hmax hsil
    have hstep := step_silent_cont cfg start inp rest frames disp st
      (hmax inp (List.mem_cons_self inp rest))
      (hlb inp (List.mem_cons_self inp rest))
      (hsil inp (List.mem_cons_self inp rest))
      (hcont inp (List.mem_cons_self inp rest))
    obtain ⟨d3, hrec⟩ := ih (frames ++ [inp.chunk])
      (dispAfter cfg frames disp inp.chunk) st
      (fun i hi => hlb i (List.mem_cons_of_mem inp hi))
      (fun i hi => hcont i (List.mem_cons_of_mem inp hi))
      (fun i hi => hmax i (List.mem_cons_of_mem inp hi))
      (fun i hi => hsil i (List.mem_cons_of_mem inp hi))
    refine ⟨d3, ?_⟩
    rw [hstep, hrec, List.map_cons, List.append_assoc, List.singleton_append]

/-- A run of silent chunks with no silence run in progress: the first chunk
starts the run at its clock reading; if all later readings stay within the
strict window of that start, every chunk is read and the loop keeps
running. -/
theorem recordLoop_silent_run_none (cfg : VoiceConfig) (start : ℚ)
    (l : List IterInput) (frames disp : List (List Byte))
    (hlb : ∀ inp ∈ l, levelBelow inp.chunk cfg.silence_threshold = true)
    (hcont : ∀ inp ∈ l, inp.cont = true)
    (hmax : ∀ inp ∈ l, ¬inp.t1 - start > cfg.max_recording_time)
    (hpair : ∀ x ∈ l, ∀ y ∈ l, ¬x.t2 - y.t2 > cfg.silence_duration) :
    ∃ d ss2, recordLoop cfg start l frames disp none
      = ⟨frames ++ l.map IterInput.chunk, d, .running ss2⟩ := by
  cases l with
  | nil => exact ⟨disp, none, by rw [recordLoop_nil]; simp⟩
  | cons inp rest =>
    have hstep := step_silent_fresh cfg start inp rest frames disp
      (hmax inp (List.mem_cons_self inp rest))
      (hlb inp (List.mem_cons_self inp rest))
      (hcont inp (List.mem_cons_self inp rest))
    obtain ⟨d3, hrec⟩ := recordLoop_silent_run cfg start rest
      (frames ++ [inp.chunk]) (dispAfter cfg frames disp inp.chunk) inp.t2
      (fun i hi => hlb i (List.mem_cons_of_mem inp hi))
      (fun i hi => hcont i (List.mem_cons_of_mem inp hi))
      (fun i hi => hmax i (List.mem_cons_of_mem inp hi))
      (fun i hi => hpair i (List.mem_cons_of_mem inp hi) inp
        (List.mem_cons_self inp rest))
    refine ⟨d3, some inp.t2, ?_⟩
    rw [hstep, hrec, List.map_cons, List.append_assoc, List.singleton_append]

/-- A silent run, one loud chunk, and a second silent run: when each silent
run stays within the strict silence window, the key is held and the cap is
never reached, the loop reads all chunks and never stops — the loud chunk
fully resets the silence clock. -/
theorem recordLoop_low_high_low (cfg : VoiceConfig) (start : ℚ)
    (A B : List IterInput) (mid : IterInput)
    (hA1 : ∀ inp ∈ A, levelBelow inp.chunk cfg.silence_threshold = true)
    (hA2 : ∀ inp ∈ A, inp.cont = true)
    (hA3 : ∀ inp ∈ A, ¬inp.t1 - start > cfg.max_recording_time)
    (hA4 : ∀ x ∈ A, ∀ y ∈ A, ¬x.t2 - y.t2 > cfg.silence_duration)
    (hm1 : ¬mid.t1 - start > cfg.max_recording_time)
    (hm2 : levelBelow mid.chunk cfg.silence_threshold = false)
    (hm3 : mid.cont = true)
    (hB1 : ∀ inp ∈ B, levelBelow inp.chunk cfg.silence_threshold = true)
    (hB2 : ∀ inp ∈ B, inp.cont = true)
    (hB3 : ∀ inp ∈ B, ¬inp.t1 - start > cfg.max_recording_time)
    (hB4 : ∀ x ∈ B, ∀ y ∈ B, ¬x.t2 - y.t2 > cfg.silence_duration) :
    ∃ d ss2, recordLoop cfg start (A ++ [mid] ++ B) [] [] none
      = ⟨(A ++ [mid] ++ B).map IterInput.chunk, d, .running ss2⟩ := by
  obtain ⟨dA, ssA, hA⟩ := recordLoop_silent_run_none cfg start A [] [] hA1 hA2 hA3 hA4
  have comp1 : recordLoop cfg start (A ++ ([mid] ++ B)) [] [] none
      = recordLoop cfg start ([mid] ++ B)
          (([] : List (List Byte)) ++ A.map IterInput.chunk) dA ssA :=
    recordLoop_append cfg start A ([mid] ++ B) [] [] none _ dA ssA hA
  have comp2 : recordLoop cfg start (mid :: B)
      (([] : List (List Byte)) ++ A.map IterInput.chunk) dA ssA
      = recordLoop cfg start B
          ((([] : List (List Byte)) ++ A.map IterInput.chunk) ++ [mid.chunk])
          (dispAfter cfg (([] : List (List Byte)) ++ A.map IterInput.chunk)
            dA mid.chunk) none :=
    step_loud cfg start mid B _ dA ssA hm1 hm2 hm3
  obtain ⟨dB, ssB, hB⟩ := recordLoop_silent_run_none cfg start B
    ((([] : List (List Byte)) ++ A.map IterInput.chunk) ++ [mid.chunk])
    (dispAfter cfg (([] : List (List Byte)) ++ A.map IterInput.chunk) dA mid.chunk)
    hB1 hB2 hB3 hB4
  refine ⟨dB, ssB, ?_⟩
  calc recordLoop cfg start (A ++ [mid] ++ B) [] [] none
      = recordLoop cfg start (A ++ ([mid] ++ B)) [] [] none := by
        rw [List.append_assoc]
    _ = recordLoop cfg start ([mid] ++ B)
          (([] : List (List Byte)) ++ A.map IterInput.chunk) dA ssA := comp1
    _ = recordLoop cfg start B
          ((([] : List (List Byte)) ++ A.map IterInput.chunk) ++ [mid.chunk])
          (dispAfter cfg (([] : List (List Byte)) ++ A.map IterInput.chunk)
            dA mid.chunk) none := comp2
    _ = ⟨((([] : List (List Byte)) ++ A.map IterInput.chunk) ++ [mid.chunk])
          ++ B.map IterInput.chunk, dB, .running ssB⟩ := hB
    _ = ⟨(A ++ [mid] ++ B).map IterInput.chunk, dB, .running ssB⟩ := by
        simp [List.map_append]

/-- Shape of the elements of a uniform silent segment. -/
theorem mem_uniformSilentSeg (c : List Byte) (dt : ℚ) (lo len : Nat)
    (inp : IterInput) (h : inp ∈ uniformSilentSeg c dt lo len) :
    ∃ j, j < len ∧ inp.chunk = c ∧ inp.cont = true ∧
      inp.t1 = ((lo : ℚ) + (j : ℚ)) * dt ∧
      inp.t2 = ((lo : ℚ) + (j : ℚ) + 1) * dt := by
  unfold uniformSilentSeg at h
  rw [List.mem_map] at h
  obtain ⟨j, hjr, he⟩ := h
  rw [List.mem_range] at hjr
  exact ⟨j, hjr, by rw [← he], by rw [← he], by rw [← he], by rw [← he]⟩

/-- C6 counterexample: the spec-worded expiry predicate (`now - start >=
silence_duration`) fires at `now - start = 1` with duration 1, but the loop
— whose comparison is strict — keeps running on a trace whose second silent
check happens exactly at the boundary. -/
theorem silence_boundary_not_expired :
    specSilenceExpired 1 0 1 = true ∧
    (recordLoop { VoiceConfig.default with silence_duration := 1 } 0
        [⟨0, [0, 0], 0, true⟩, ⟨1/2, [0, 0], 1, true⟩] [] [] none).status
      = .running (some 0) := by
  constructor
  · simp only [specSilenceExpired, decide_eq_true_eq]
    norm_num
  · have hstep1 := step_silent_fresh
      { VoiceConfig.default with silence_duration := 1 } 0
      ⟨0, [0, 0], 0, true⟩ [⟨1/2, [0, 0], 1, true⟩] [] []
      (show ¬((0:ℚ) - 0 > 30) by norm_num) levelBelow_chunk0 rfl
    have e1 : recordLoop { VoiceConfig.default with silence_duration := 1 } 0
        [⟨0, [0, 0], 0, true⟩, ⟨1/2, [0, 0], 1, true⟩] [] [] none
        = recordLoop { VoiceConfig.default with silence_duration := 1 } 0
            [⟨1/2, [0, 0], 1, true⟩] [[0, 0]]
            (dispAfter { VoiceConfig.default with silence_duration := 1 }
              [] [] [0, 0]) (some 0) := hstep1
    have hstep2 := step_silent_cont
      { VoiceConfig.default with silence_duration := 1 } 0
      ⟨1/2, [0, 0], 1, true⟩ [] [[0, 0]]
      (dispAfter { VoiceConfig.default with silence_duration := 1 } [] [] [0, 0]) 0
      (show ¬((1:ℚ)/2 - 0 > 30) by norm_num)
      levelBelow_chunk0
      (show ¬((1:ℚ) - 0 > 1) by norm_num)
      rfl
    rw [e1, hstep2, recordLoop_nil]

/-- C6 (amended): silence tracking is edge-triggered with a strict expiry
comparison: a silent chunk stops the loop via the silence path exactly when
its clock reading strictly exceeds the run start plus `silence_duration`
(the boundary case continues, keeping the run start); any single
above-threshold chunk fully resets the run to "no run in progress"; and on
a level sequence `[low]*k + [high] + [low]*k` with uniform chunk duration
`dt` satisfying `k * dt < silence_duration`, the loop never stops. -/
theorem silence_strict_and_edge_triggered :
    (∀ (cfg : VoiceConfig) (start : ℚ) (inp : IterInput) (rest : List IterInput)
        (frames disp : List (List Byte)) (st : ℚ),
      ¬inp.t1 - start > cfg.max_recording_time →
      levelBelow inp.chunk cfg.silence_threshold = true →
      inp.t2 - st > cfg.silence_duration →
      recordLoop cfg start (inp :: rest) frames disp (some st)
        = ⟨frames ++ [inp.chunk], dispAfter cfg frames disp inp.chunk,
            .stopped .silence⟩) ∧
    (∀ (cfg : VoiceConfig) (start : ℚ) (inp : IterInput) (rest : List IterInput)
        (frames disp : List (List Byte)) (st : ℚ),
      ¬inp.t1 - start > cfg.max_recording_time →
      levelBelow inp.chunk cfg.silence_threshold = true →
      ¬inp.t2 - st > cfg.silence_duration →
      inp.cont = true →
      recordLoop cfg start (inp :: rest) frames disp (some st)
        = recordLoop cfg start rest (frames ++ [inp.chunk])
            (dispAfter cfg frames disp inp.chunk) (some st)) ∧
    (∀ (cfg : VoiceConfig) (start : ℚ) (inp : IterInput) (rest : List IterInput)
        (frames disp : List (List Byte)) (ss : Option ℚ),
      ¬inp.t1 - start > cfg.max_recording_time →
      levelBelow inp.chunk cfg.silence_threshold = false →
      inp.cont = true →
      recordLoop cfg start (inp :: rest) frames disp ss
        = recordLoop cfg start rest (frames ++ [inp.chunk])
            (dispAfter cfg frames disp inp.chunk) none) ∧
    (∀ (cfg : VoiceConfig) (silent loud : List Byte) (k : Nat) (dt : ℚ),
      levelBelow silent cfg.silence_threshold = true →
      levelBelow loud cfg.silence_threshold = false →
      0 < dt →
      (k : ℚ) * dt < cfg.silence_duration →
      2 * (k : ℚ) * dt ≤ cfg.max_recording_time →
      ∃ d ss2, recordLoop cfg 0 (uniformTrace silent loud k dt) [] [] none
        = ⟨(uniformTrace silent loud k dt).map IterInput.chunk, d,
            .running ss2⟩) := by
  refine ⟨?_, ?_, ?_, ?_⟩
  · intro cfg start inp rest frames disp st h1 h2 h4
    exact step_silence_stop cfg start inp rest frames disp st h1 h2 h4
  · intro cfg start inp rest frames disp st h1 h2 h4 h3
    exact step_silent_cont cfg start inp rest frames disp st h1 h2 h4 h3
  · intro cfg start inp rest frames disp ss h1 h2 h3
    exact step_loud cfg start inp rest frames disp ss h1 h2 h3
  · intro cfg silent loud k dt hs hl hdt hk hmax
    have hcap : ∀ m : ℚ, 0 ≤ m → m ≤ 2 * (k : ℚ) →
        ¬(m * dt - 0 > cfg.max_recording_time) := by
      intro m hm0 hm2
      simp only [gt_iff_lt, not_lt]
      have h1 : m * dt ≤ 2 * (k : ℚ) * dt := mul_le_mul_of_nonneg_right hm2 hdt.le
      linarith
    have hpairgen : ∀ (lo jx jy : Nat), jx < k →
        ¬(((lo : ℚ) + (jx : ℚ) + 1) * dt - ((lo : ℚ) + (jy : ℚ) + 1) * dt
          > cfg.silence_duration) := by
      intro lo jx jy hjx
      simp only [gt_iff_lt, not_lt]
      have heq : ((lo : ℚ) + jx + 1) * dt - ((lo : ℚ) + jy + 1) * dt
          = ((jx : ℚ) - jy) * dt := by ring
      rw [heq]
      have hxk : (jx : ℚ) ≤ k := by exact_mod_cast hjx.le
      have hy0 : (0 : ℚ) ≤ jy := Nat.cast_nonneg jy
      have h1 : (jx : ℚ) - jy ≤ (k : ℚ) := by linarith
      have h2 : ((jx : ℚ) - jy) * dt ≤ (k : ℚ) * dt :=
        mul_le_mul_of_nonneg_right h1 hdt.le
      linarith
    unfold uniformTrace
    apply recordLoop_low_high_low
    · intro inp hi
      obtain ⟨j, hj, hc, hco, ht1, ht2⟩ := mem_uniformSilentSeg _ _ _ _ inp hi
      rw [hc]
      exact hs
    · intro inp hi
      obtain ⟨j, hj, hc, hco, ht1, ht2⟩ := mem_uniformSilentSeg _ _ _ _ inp hi
      exact hco
    · intro inp hi
      obtain ⟨j, hj, hc, hco, ht1, ht2⟩ := mem_uniformSilentSeg _ _ _ _ inp hi
      rw [ht1]
      apply hcap
      · positivity
      · have hjk : (j : ℚ) ≤ (k : ℚ) := by exact_mod_cast hj.le
        have hk0 : (0 : ℚ) ≤ (k : ℚ) := Nat.cast_nonneg k
        push_cast
        linarith
    · intro x hx y hy
      obtain ⟨jx, hjx, hcx, hcox, ht1x, ht2x⟩ := mem_uniformSilentSeg _ _ _ _ x hx
      obtain ⟨jy, hjy, hcy, hcoy, ht1y, ht2y⟩ := mem_uniformSilentSeg _ _ _ _ y hy
      rw [ht2x, ht2y]
      exact hpairgen 0 jx jy hjx
    · apply hcap
      · exact Nat.cast_nonneg k
      · have hk0 : (0 : ℚ) ≤ (k : ℚ) := Nat.cast_nonneg k
        linarith
    · exact hl
    · rfl
    · intro inp hi
      obtain ⟨j, hj, hc, hco, ht1, ht2⟩ := mem_uniformSilentSeg _ _ _ _ inp hi
      rw [hc]
      exact hs
    · intro inp hi
      obtain ⟨j, hj, hc, hco, ht1, ht2⟩ := mem_uniformSilentSeg _ _ _ _ inp hi
      exact hco
    · intro inp hi
      obtain ⟨j, hj, hc, hco, ht1, ht2⟩ := mem_uniformSilentSeg _ _ _ _ inp hi
      rw [ht1]
      apply hcap
      · positivity
      · have hjk : (j : ℚ) + 1 ≤ (k : ℚ) := by exact_mod_cast Nat.succ_le_of_lt hj
        push_cast
        linarith
    · intro x hx y hy
      obtain ⟨jx, hjx, hcx, hcox, ht1x, ht2x⟩ := mem_uniformSilentSeg _ _ _ _ x hx
      obtain ⟨jy, hjy, hcy, hcoy, ht1y, ht2y⟩ := mem_uniformSilentSeg _ _ _ _ y hy
      rw [ht2x, ht2y]
      exact hpairgen (k + 1) jx jy hjx

/-- C6 witness: a silent chunk checked at 2 s against a run started at 0
(duration 1.5 s) stops via the silence path; and the sequence
`[low]*2 + [high] + [low]*2` at two chunks per second (`k * dt = 1 < 1.5`)
never stops. -/
theorem silence_strict_and_edge_triggered_witness :
    recordLoop VoiceConfig.default 0 [⟨2, [0, 0], 2, true⟩] [] [] (some 0)
      = ⟨[[0, 0]], dispAfter VoiceConfig.default [] [] [0, 0],
          .stopped .silence⟩ ∧
    ∃ d ss2, recordLoop VoiceConfig.default 0
        (uniformTrace [0, 0] [44, 1] 2 (1/2)) [] [] none
      = ⟨(uniformTrace [0, 0] [44, 1] 2 (1/2)).map IterInput.chunk, d,
          .running ss2⟩ :=
  ⟨silence_strict_and_edge_triggered.1 VoiceConfig.default 0
      ⟨2, [0, 0], 2, true⟩ [] [] [] 0
      (show ¬((2:ℚ) - 0 > 30) by norm_num) levelBelow_chunk0
      (show (2:ℚ) - 0 > 3/2 by norm_num),
   silence_strict_and_edge_triggered.2.2.2 VoiceConfig.default [0, 0] [44, 1]
      2 (1/2) levelBelow_chunk0 levelBelow_chunk300 (by norm_num)
      (show ((2:ℕ) : ℚ) * (1/2) < 3/2 by norm_num)
      (show 2 * ((2:ℕ) : ℚ) * (1/2) ≤ 30 by norm_num)⟩

end VoiceModule
